import Mathlib

/-!
Verification development for the Orbit Vulkan layer's GPU submission tracker.

Shallow embedding of:
* `TimerQueryPool` (timestamp slot pool): `NextReadyQuerySlot`,
  `ResetQuerySlotsInternal` / `ResetQuerySlots` / `RollbackPendingQuerySlots`.
* `SubmissionTracker`: `TrackCommandBuffers`, `MarkCommandBufferBegin`,
  `MarkCommandBufferEnd`, `MarkDebugMarkerBegin`, `MarkDebugMarkerEnd`,
  `ResetCommandBuffer`, `DoPostSubmitQueue`, `PullCompletedSubmissions`.

Modelling conventions:
* Opaque Vulkan handles (`VkDevice`, `VkCommandBuffer`, ...) are `Nat`.
* `absl::flat_hash_map` is an association list with unique keys
  (`mapLookup` / `mapInsert` / `mapErase`); `absl::flat_hash_set` is a
  duplicate-free list (`setInsert`).
* A fatal `CHECK` failure, a thrown `std::bad_optional_access`
  (`std::optional::value()` on an empty optional) and undefined behaviour
  (`std::stack::top()` on an empty stack) are all modelled as `none`;
  functions that cannot fail are total.
* The hooks run under one writer mutex, so each hook is a sequential state
  transformer.  The capture flag observed by a hook is passed as a `Bool`
  argument; the current time and thread id are passed as arguments as well.
* Calls the tracker makes into the `TimerQueryPool` or the driver are
  returned as explicit data so theorems can talk about them.
-/

namespace OrbitVulkanLayer

abbrev VkDevice := Nat
abbrev VkCommandPool := Nat
abbrev VkCommandBuffer := Nat
abbrev VkQueue := Nat

/-- Association-list lookup, standing in for `absl::flat_hash_map::at` /
`contains` (keys are unique). -/
def mapLookup {V : Type _} (m : List (Nat × V)) (k : Nat) : Option V :=
  match m with
  | [] => none
  | (k', v) :: rest => if k' = k then some v else mapLookup rest k

/-- Map write `m[k] = v`: overwrite the entry for `k`, or append a fresh one. -/
def mapInsert {V : Type _} (m : List (Nat × V)) (k : Nat) (v : V) : List (Nat × V) :=
  match m with
  | [] => [(k, v)]
  | (k', v') :: rest => if k' = k then (k, v) :: rest else (k', v') :: mapInsert rest k v

/-- Map erase `m.erase(k)`: drop the (unique) entry for `k`. -/
def mapErase {V : Type _} (m : List (Nat × V)) (k : Nat) : List (Nat × V) :=
  match m with
  | [] => []
  | (k', v') :: rest => if k' = k then rest else (k', v') :: mapErase rest k

/-- Set insert, `absl::flat_hash_set::insert`. -/
def setInsert (s : List Nat) (x : Nat) : List Nat :=
  if x ∈ s then s else s ++ [x]

theorem mapLookup_insert_self {V : Type _} (m : List (Nat × V)) (k : Nat) (v : V) :
    mapLookup (mapInsert m k v) k = some v := by
  induction m with
  | nil => simp [mapInsert, mapLookup]
  | cons hd tl ih =>
    obtain ⟨k', v'⟩ := hd
    by_cases h : k' = k <;> simp [mapInsert, mapLookup, h, ih]

theorem mapLookup_insert_ne {V : Type _} (m : List (Nat × V)) (k k' : Nat) (v : V)
    (h : k ≠ k') : mapLookup (mapInsert m k v) k' = mapLookup m k' := by
  induction m with
  | nil => simp [mapInsert, mapLookup, h]
  | cons hd tl ih =>
    obtain ⟨k₀, v₀⟩ := hd
    by_cases h₀ : k₀ = k
    · subst h₀
      simp [mapInsert, mapLookup, h]
    · simp only [mapInsert, if_neg h₀]
      by_cases h₁ : k₀ = k' <;> simp [mapLookup, h₁, ih]

theorem mapLookup_erase_self {V : Type _} (m : List (Nat × V)) (k : Nat)
    (hnd : (m.map Prod.fst).Nodup) : mapLookup (mapErase m k) k = none := by
  induction m with
  | nil => simp [mapErase, mapLookup]
  | cons hd tl ih =>
    obtain ⟨k', v'⟩ := hd
    simp only [List.map_cons, List.nodup_cons] at hnd
    by_cases h : k' = k
    · subst h
      simp only [mapErase, if_pos rfl]
      -- no further entry with key `k` exists
      clear ih
      induction tl with
      | nil => simp [mapLookup]
      | cons hd₂ tl₂ ih₂ =>
        obtain ⟨k₂, v₂⟩ := hd₂
        simp only [List.map_cons, List.mem_cons, List.nodup_cons] at hnd
        by_cases h₂ : k₂ = k'
        · exact absurd (h₂ ▸ Or.inl rfl) hnd.1
        · simpa [mapLookup, h₂] using ih₂ ⟨fun hm => hnd.1 (Or.inr hm), hnd.2.2⟩
    · simpa [mapErase, mapLookup, h] using ih hnd.2

theorem mapLookup_erase_none {V : Type _} (m : List (Nat × V)) (k : Nat)
    (h : mapLookup m k = none) : mapErase m k = m := by
  induction m with
  | nil => rfl
  | cons hd tl ih =>
    obtain ⟨k', v'⟩ := hd
    by_cases hk : k' = k
    · simp [mapLookup, hk] at h
    · simp only [mapLookup, if_neg hk] at h
      simp [mapErase, hk, ih h]

theorem mapLookup_erase_ne {V : Type _} (m : List (Nat × V)) (k k' : Nat)
    (h : k ≠ k') : mapLookup (mapErase m k) k' = mapLookup m k' := by
  induction m with
  | nil => rfl
  | cons hd tl ih =>
    obtain ⟨k₀, v₀⟩ := hd
    by_cases h₀ : k₀ = k
    · subst h₀
      have hkk' : ¬ k₀ = k' := h
      simp [mapErase, mapLookup, hkk']
    · have h' : ¬ k' = k := fun hh => h hh.symm
      by_cases h₁ : k₀ = k' <;> simp [mapErase, mapLookup, h₀, h₁, ih, h']

/-! ## TimerQueryPool (`TimerQueryPool.h`)

Per-device bookkeeping of the timestamp query slots: the `SlotState` vector
and the free-slot vector.  The C++ free list is a `std::vector` used as a
LIFO via `back()` / `pop_back()` / `push_back()`; we store it with the
vector's *back* as the list head, so `push_back` is `::` and `pop_back`
drops the head.  LIFO hand-out order is preserved exactly. -/

inductive SlotState
  | kReadyForQueryIssue
  | kQueryPendingOnGpu
deriving DecidableEq, Repr

structure QueryPoolState where
  query_slots : List SlotState
  /-- free slot indices; head = the C++ vector's back (handed out next). -/
  free_slots : List Nat
deriving DecidableEq, Repr

/-- Per-device state created by `InitializeTimerQueryPool`: all `num` slots ready, free list = iota
`0, ..., num-1` (vector back = `num-1`, hence the head here). -/
def initTimerQueryPool (num_timer_query_slots : Nat) : QueryPoolState :=
  ⟨List.replicate num_timer_query_slots .kReadyForQueryIssue,
   (List.range num_timer_query_slots).reverse⟩

/-- Embedding of `TimerQueryPool::NextReadyQuerySlot`.  Outer `none` = fatal `CHECK`
failure; `some none` = pool exhausted (C++ returns `false`);
`some (some (i, p'))` = slot `i` handed out. -/
def NextReadyQuerySlot (p : QueryPoolState) : Option (Option (Nat × QueryPoolState)) :=
  match p.free_slots with
  | [] => some none
  | allocated_index :: free_rest =>
    match p.query_slots[allocated_index]? with
    | some .kReadyForQueryIssue =>
      some (some (allocated_index,
        ⟨p.query_slots.set allocated_index .kQueryPendingOnGpu, free_rest⟩))
    | _ => none

/-- Loop body of `TimerQueryPool::ResetQuerySlotsInternal`: for each slot,
`CHECK(slot < num)`, `CHECK(state == kQueryPendingOnGpu)`, mark ready, push
to the free list, and (unless `rollback_only`) issue the driver call
`ResetQueryPoolEXT(slot, 1)`; the second component returns the slots whose
single-slot driver reset was issued, in call order. -/
def resetSlotsGo (num : Nat) (rollback_only : Bool) :
    List Nat → QueryPoolState → List Nat → Option (QueryPoolState × List Nat)
  | [], p, calls => some (p, calls)
  | slot_index :: rest, p, calls =>
    if slot_index < num then
      match p.query_slots[slot_index]? with
      | some .kQueryPendingOnGpu =>
        resetSlotsGo num rollback_only rest
          ⟨p.query_slots.set slot_index .kReadyForQueryIssue, slot_index :: p.free_slots⟩
          (calls ++ if rollback_only then [] else [slot_index])
      | _ => none
    else none

/-- Embedding of `TimerQueryPool::ResetQuerySlotsInternal` (early return on an empty
slot list, before taking the lock). -/
def ResetQuerySlotsInternal (num : Nat) (p : QueryPoolState) (slot_indices : List Nat)
    (rollback_only : Bool) : Option (QueryPoolState × List Nat) :=
  if slot_indices.isEmpty then some (p, []) else resetSlotsGo num rollback_only slot_indices p []

/-- Embedding of `TimerQueryPool::ResetQuerySlots`: release with hardware reset. -/
def ResetQuerySlots (num : Nat) (p : QueryPoolState) (slot_indices : List Nat) :
    Option (QueryPoolState × List Nat) :=
  ResetQuerySlotsInternal num p slot_indices false

/-- Embedding of `TimerQueryPool::RollbackPendingQuerySlots`: release without the
hardware reset. -/
def RollbackPendingQuerySlots (num : Nat) (p : QueryPoolState) (slot_indices : List Nat) :
    Option (QueryPoolState × List Nat) :=
  ResetQuerySlotsInternal num p slot_indices true

/-- Slot-state predicates used for counting. -/
def isReadySlot (s : SlotState) : Bool := s = SlotState.kReadyForQueryIssue

def isPendingSlot (s : SlotState) : Bool := s = SlotState.kQueryPendingOnGpu

/-- The pool invariant of the spec: the free list is duplicate-free, holds
only indices below the capacity, and holds exactly the indices whose state
is `kReadyForQueryIssue` (each slot is in exactly one of the two states by
construction of `SlotState`). -/
def PoolInv (num : Nat) (p : QueryPoolState) : Prop :=
  p.query_slots.length = num ∧ p.free_slots.Nodup ∧
  (∀ i ∈ p.free_slots, i < num) ∧
  (∀ i, i < num → (i ∈ p.free_slots ↔ p.query_slots[i]? = some .kReadyForQueryIssue))

instance (num : Nat) (p : QueryPoolState) : Decidable (PoolInv num p) := by
  unfold PoolInv
  infer_instance

/-- The spec's counting form of the invariant: `ready + pending = N`,
and the free list is exactly as large as the set of ready slots. -/
def PoolClaimInv (num : Nat) (p : QueryPoolState) : Prop :=
  PoolInv num p ∧
  p.query_slots.countP isReadySlot + p.query_slots.countP isPendingSlot = num

instance (num : Nat) (p : QueryPoolState) : Decidable (PoolClaimInv num p) := by
  unfold PoolClaimInv
  infer_instance

theorem countP_ready_add_pending (l : List SlotState) :
    l.countP isReadySlot + l.countP isPendingSlot = l.length := by
  induction l with
  | nil => simp
  | cons hd tl ih =>
    cases hd <;>
      simp [List.countP_cons, isReadySlot, isPendingSlot, ← ih] <;> omega

theorem getElem?_some_lt {α : Type _} {l : List α} {i : Nat} {a : α}
    (h : l[i]? = some a) : i < l.length := by
  by_contra hle
  rw [List.getElem?_eq_none (Nat.le_of_not_lt hle)] at h
  exact Option.noConfusion h

theorem poolInv_acquire (num : Nat) (p : QueryPoolState) (hinv : PoolInv num p)
    (i : Nat) (p' : QueryPoolState)
    (h : NextReadyQuerySlot p = some (some (i, p'))) : PoolInv num p' := by
  obtain ⟨hlen, hnd, hbound, hiff⟩ := hinv
  unfold NextReadyQuerySlot at h
  split at h
  · exact absurd (Option.some.inj h) (by intro hh; cases hh)
  next idx rest hfree =>
    split at h
    next hget =>
      obtain ⟨hi, hp⟩ := Prod.mk.injEq .. ▸ Option.some.inj (Option.some.inj h)
      have hidxlt : idx < p.query_slots.length := getElem?_some_lt hget
      have hndrest : rest.Nodup := by
        rw [hfree] at hnd; exact hnd.of_cons
      have hinot : idx ∉ rest := by
        rw [hfree] at hnd
        exact (List.nodup_cons.mp hnd).1
      refine hp ▸ ⟨by simpa using hlen, hndrest, ?_, ?_⟩
      · intro j hj
        exact hbound j (hfree ▸ List.mem_cons_of_mem _ hj)
      · intro j hjlt
        by_cases hji : j = idx
        · subst hji
          simp [List.getElem?_set_self hidxlt, hinot]
        · rw [List.getElem?_set_ne (by omega)]
          have hjf := hiff j hjlt
          rw [hfree] at hjf
          simp only [List.mem_cons] at hjf
          constructor
          · intro hmem; exact hjf.mp (Or.inr hmem)
          · intro hr
            rcases hjf.mpr hr with hji' | hmem
            · exact absurd hji' hji
            · exact hmem
    next hget => exact Option.noConfusion h

theorem poolInv_resetSlotsGo (num : Nat) (ro : Bool) :
    ∀ (slots : List Nat) (p : QueryPoolState) (calls : List Nat)
      (_ : PoolInv num p) (p' : QueryPoolState) (calls' : List Nat)
      (_ : resetSlotsGo num ro slots p calls = some (p', calls')),
      PoolInv num p' := by
  intro slots
  induction slots with
  | nil =>
    intro p calls hinv p' calls' h
    obtain ⟨hp, _⟩ := Prod.mk.injEq .. ▸ Option.some.inj h
    exact hp ▸ hinv
  | cons i rest ih =>
    intro p calls hinv p' calls' h
    obtain ⟨hlen, hnd, hbound, hiff⟩ := hinv
    unfold resetSlotsGo at h
    split at h
    next hlt =>
      split at h
      next hget =>
        have hilt : i < p.query_slots.length := getElem?_some_lt hget
        have hinotfree : i ∉ p.free_slots := by
          intro hmem
          have hr := (hiff i hlt).mp hmem
          rw [hget] at hr
          exact absurd (Option.some.inj hr) (by intro hh; cases hh)
        refine ih _ _ ⟨by simpa using hlen, ?_, ?_, ?_⟩ p' calls' h
        · exact List.nodup_cons.mpr ⟨hinotfree, hnd⟩
        · intro j hj
          rcases List.mem_cons.mp hj with hji | hmem
          · exact hji ▸ hlt
          · exact hbound j hmem
        · intro j hjlt
          by_cases hji : j = i
          · subst hji
            simp [List.getElem?_set_self hilt]
          · rw [List.getElem?_set_ne (by omega)]
            simp only [List.mem_cons]
            constructor
            · intro hmem
              rcases hmem with hji' | hmem
              · exact absurd hji' hji
              · exact (hiff j hjlt).mp hmem
            · intro hr
              exact Or.inr ((hiff j hjlt).mpr hr)
      next hget => exact Option.noConfusion h
    next hlt => exact Option.noConfusion h

theorem poolInv_resetInternal (num : Nat) (ro : Bool) (p : QueryPoolState)
    (slots : List Nat) (hinv : PoolInv num p) (p' : QueryPoolState) (calls : List Nat)
    (h : ResetQuerySlotsInternal num p slots ro = some (p', calls)) : PoolInv num p' := by
  unfold ResetQuerySlotsInternal at h
  by_cases he : slots.isEmpty
  · rw [if_pos he] at h
    obtain ⟨hp, _⟩ := Prod.mk.injEq .. ▸ Option.some.inj h
    exact hp ▸ hinv
  · rw [if_neg he] at h
    exact poolInv_resetSlotsGo num ro slots p [] hinv p' calls h

/-! ## SubmissionTracker data model (`SubmissionTracker.h`) -/

structure Color where
  red : Float
  green : Float
  blue : Float
  alpha : Float

inductive MarkerType
  | kDebugMarkerBegin
  | kDebugMarkerEnd
deriving DecidableEq, Repr

structure Marker where
  type : MarkerType
  slot_index : Option Nat
  text : Option String
  color : Option Color

structure SubmissionMetaInformation where
  pre_submission_cpu_timestamp : Nat
  post_submission_cpu_timestamp : Nat
  thread_id : Int

structure SubmittedMarker where
  meta_information : SubmissionMetaInformation
  slot_index : Nat

structure MarkerState where
  begin_info : Option SubmittedMarker
  end_info : Option SubmittedMarker
  text : String
  color : Color
  depth : Nat

structure QueueMarkerState where
  /-- The `std::stack<MarkerState>`; the list head is the top of the stack. -/
  marker_stack : List MarkerState

structure CommandBufferState where
  command_buffer_begin_slot_index : Option Nat
  command_buffer_end_slot_index : Option Nat
  markers : List Marker
  local_marker_stack_size : Nat

structure SubmittedCommandBuffer where
  command_buffer_begin_slot_index : Option Nat
  command_buffer_end_slot_index : Nat

structure SubmitInfo where
  command_buffers : List SubmittedCommandBuffer

structure QueueSubmission where
  meta_information : SubmissionMetaInformation
  submit_infos : List SubmitInfo
  completed_markers : List MarkerState
  num_begin_markers : Nat

/-- The five maps guarded by the tracker's mutex. -/
structure TrackerState where
  pool_to_command_buffers : List (VkCommandPool × List VkCommandBuffer)
  command_buffer_to_device : List (VkCommandBuffer × VkDevice)
  command_buffer_to_state : List (VkCommandBuffer × CommandBufferState)
  queue_to_submissions : List (VkQueue × List QueueSubmission)
  queue_to_markers : List (VkQueue × QueueMarkerState)

def TrackerState.initial : TrackerState := ⟨[], [], [], [], []⟩

/-! ## SubmissionTracker hooks -/

/-- Embedding of `SubmissionTracker::TrackCommandBuffers`.  Note: the source has no
`CHECK` here; re-tracking an already tracked buffer silently re-inserts it
into the pool's set and overwrites its device entry. -/
def TrackCommandBuffers (st : TrackerState) (device : VkDevice) (pool : VkCommandPool)
    (command_buffers : List VkCommandBuffer) : TrackerState :=
  let associated_cbs := (mapLookup st.pool_to_command_buffers pool).getD []
  { st with
    pool_to_command_buffers :=
      mapInsert st.pool_to_command_buffers pool (command_buffers.foldl setInsert associated_cbs),
    command_buffer_to_device :=
      command_buffers.foldl (fun m cb => mapInsert m cb device) st.command_buffer_to_device }

/-- Embedding of `SubmissionTracker::PreSubmission`: a CPU timestamp if capturing. -/
def PreSubmission (capturing : Bool) (now : Nat) : Option Nat :=
  if capturing then some now else none

/-- Embedding of `SubmissionTracker::MarkCommandBufferBegin`.  Fatal (`none`) if a state
for the buffer already exists, or — on the capturing path — if
`RecordTimestamp`'s device lookup fails.  `slot_index` is the slot the
query pool hands out if one is requested. -/
def MarkCommandBufferBegin (capturing : Bool) (st : TrackerState)
    (command_buffer : VkCommandBuffer) (slot_index : Nat) : Option TrackerState :=
  match mapLookup st.command_buffer_to_state command_buffer with
  | some _ => none
  | none =>
    let st1 : TrackerState :=
      { st with command_buffer_to_state :=
          mapInsert st.command_buffer_to_state command_buffer ⟨none, none, [], 0⟩ }
    if !capturing then some st1
    else
      match mapLookup st1.command_buffer_to_device command_buffer with
      | none => none
      | some _ =>
        let state_map := mapInsert st1.command_buffer_to_state command_buffer
          ⟨some slot_index, none, [], 0⟩
        some { st1 with command_buffer_to_state := state_map }

/-- Embedding of `SubmissionTracker::MarkCommandBufferEnd`.  Does nothing when not
capturing; otherwise records `slot_index` as the end slot. -/
def MarkCommandBufferEnd (capturing : Bool) (st : TrackerState)
    (command_buffer : VkCommandBuffer) (slot_index : Nat) : Option TrackerState :=
  if !capturing then some st
  else
    match mapLookup st.command_buffer_to_device command_buffer with
    | none => none
    | some _ =>
      match mapLookup st.command_buffer_to_state command_buffer with
      | none => none
      | some state =>
        let state_map := mapInsert st.command_buffer_to_state command_buffer
          { state with command_buffer_end_slot_index := some slot_index }
        some { st with command_buffer_to_state := state_map }

/-- Write to the last marker entry, `state.markers.back().slot_index = slot_index`. -/
def setLastSlot (markers : List Marker) (slot_index : Nat) : List Marker :=
  match markers with
  | [] => []
  | [m] => [{ m with slot_index := some slot_index }]
  | m :: rest => m :: setLastSlot rest slot_index

/-- Embedding of `SubmissionTracker::MarkDebugMarkerBegin`.  Returns the new state and
whether a slot was acquired (`RecordTimestamp` was reached). -/
def MarkDebugMarkerBegin (capturing : Bool)
    (max_local_marker_depth_per_command_buffer : Nat) (st : TrackerState)
    (command_buffer : VkCommandBuffer) (text : String) (color : Color)
    (slot_index : Nat) : Option (TrackerState × Bool) :=
  match mapLookup st.command_buffer_to_state command_buffer with
  | none => none
  | some state =>
    let state1 : CommandBufferState :=
      { state with
        markers := state.markers ++ [⟨.kDebugMarkerBegin, none, some text, some color⟩],
        local_marker_stack_size := state.local_marker_stack_size + 1 }
    let too_many_markers : Bool :=
      decide (0 < max_local_marker_depth_per_command_buffer) &&
      decide (max_local_marker_depth_per_command_buffer < state1.local_marker_stack_size)
    let st1 : TrackerState :=
      { st with command_buffer_to_state :=
          mapInsert st.command_buffer_to_state command_buffer state1 }
    if !capturing || too_many_markers then some (st1, false)
    else
      match mapLookup st1.command_buffer_to_device command_buffer with
      | none => none
      | some _ =>
        let state_map := mapInsert st1.command_buffer_to_state command_buffer
          { state1 with markers := setLastSlot state1.markers slot_index }
        some ({ st1 with command_buffer_to_state := state_map }, true)

/-- Embedding of `SubmissionTracker::MarkDebugMarkerEnd`.  The depth test uses the
pre-decrement `local_marker_stack_size`, which is then decremented but
floored at zero. -/
def MarkDebugMarkerEnd (capturing : Bool)
    (max_local_marker_depth_per_command_buffer : Nat) (st : TrackerState)
    (command_buffer : VkCommandBuffer) (slot_index : Nat) : Option (TrackerState × Bool) :=
  match mapLookup st.command_buffer_to_state command_buffer with
  | none => none
  | some state =>
    let too_many_markers : Bool :=
      decide (0 < max_local_marker_depth_per_command_buffer) &&
      decide (max_local_marker_depth_per_command_buffer < state.local_marker_stack_size)
    let state1 : CommandBufferState :=
      { state with
        markers := state.markers ++ [⟨.kDebugMarkerEnd, none, none, none⟩],
        local_marker_stack_size :=
          if state.local_marker_stack_size ≠ 0 then state.local_marker_stack_size - 1
          else state.local_marker_stack_size }
    let st1 : TrackerState :=
      { st with command_buffer_to_state :=
          mapInsert st.command_buffer_to_state command_buffer state1 }
    if !capturing || too_many_markers then some (st1, false)
    else
      match mapLookup st1.command_buffer_to_device command_buffer with
      | none => none
      | some _ =>
        let state_map := mapInsert st1.command_buffer_to_state command_buffer
          { state1 with markers := setLastSlot state1.markers slot_index }
        some ({ st1 with command_buffer_to_state := state_map }, true)

/-- The slots referenced by a command-buffer state, in the collection order
used by both `ResetCommandBuffer` and the non-capturing branch of
`DoPostSubmitQueue`: begin slot, end slot, then each marker's slot. -/
def CommandBufferState.collectSlots (state : CommandBufferState) : List Nat :=
  state.command_buffer_begin_slot_index.toList ++
  state.command_buffer_end_slot_index.toList ++
  state.markers.filterMap Marker.slot_index

/-- Embedding of `SubmissionTracker::ResetCommandBuffer`.  Untracked buffer: silent
no-op.  Tracked: every referenced slot is handed to
`RollbackPendingQuerySlots` (second component: `some (device, slots)`) and
the record is erased.  Fatal (`none`) if the device map has no entry. -/
def ResetCommandBuffer (st : TrackerState) (command_buffer : VkCommandBuffer) :
    Option (TrackerState × Option (VkDevice × List Nat)) :=
  match mapLookup st.command_buffer_to_state command_buffer with
  | none => some (st, none)
  | some state =>
    match mapLookup st.command_buffer_to_device command_buffer with
    | none => none
    | some device =>
      some ({ st with command_buffer_to_state :=
                mapErase st.command_buffer_to_state command_buffer },
            some (device, state.collectSlots))

/-! ## DoPostSubmitQueue -/

/-- The walk over one command buffer's marker list against the queue's
marker stack (capturing regime of `DoPostSubmitQueue`).  A begin entry
pushes an open marker whose `depth` is the pre-push stack size; an end
entry copies `top()`, pops, and emits a completed marker iff the end entry
carried a slot.  `none` models the fatal `CHECK`s on a slot-carrying begin
without text/color, and the undefined behaviour of `std::stack::top()` on
an empty stack. -/
def processMarkers (meta : SubmissionMetaInformation) :
    List Marker → List MarkerState → List MarkerState → Nat →
    Option (List MarkerState × List MarkerState × Nat)
  | [], marker_stack, completed_markers, num_begin_markers =>
    some (marker_stack, completed_markers, num_begin_markers)
  | marker :: rest, marker_stack, completed_markers, num_begin_markers =>
    match marker.type with
    | .kDebugMarkerBegin =>
      match marker.text, marker.color with
      | some text, some color =>
        let num' := if marker.slot_index.isSome then num_begin_markers + 1
                    else num_begin_markers
        let marker_state : MarkerState :=
          ⟨marker.slot_index.map (fun s => ⟨meta, s⟩), none, text, color,
           marker_stack.length⟩
        processMarkers meta rest (marker_state :: marker_stack) completed_markers num'
      | _, _ => none
    | .kDebugMarkerEnd =>
      match marker_stack with
      | [] => none
      | top :: stack_rest =>
        match marker.slot_index with
        | some s =>
          processMarkers meta rest stack_rest
            (completed_markers ++ [{ top with end_info := some ⟨meta, s⟩ }])
            num_begin_markers
        | none => processMarkers meta rest stack_rest completed_markers num_begin_markers

/-- The per-command-buffer loop of the capturing regime: look up the
state (fatal if missing), walk its markers, then append the submitted
command buffer — `command_buffer_end_slot_index.value()` throws
(`none`) when the end slot is absent — and erase the record. -/
def processSubmitCbs (meta : SubmissionMetaInformation) :
    List VkCommandBuffer → List (VkCommandBuffer × CommandBufferState) →
    List MarkerState → List MarkerState → Nat → List SubmittedCommandBuffer →
    Option (List (VkCommandBuffer × CommandBufferState) × List MarkerState ×
            List MarkerState × Nat × List SubmittedCommandBuffer)
  | [], state_map, marker_stack, completed_markers, num_begin_markers, command_buffers =>
    some (state_map, marker_stack, completed_markers, num_begin_markers, command_buffers)
  | cb :: rest, state_map, marker_stack, completed_markers, num_begin_markers,
      command_buffers =>
    match mapLookup state_map cb with
    | none => none
    | some state =>
      match processMarkers meta state.markers marker_stack completed_markers
          num_begin_markers with
      | none => none
      | some (stack', completed', num') =>
        match state.command_buffer_end_slot_index with
        | none => none
        | some end_slot =>
          processSubmitCbs meta rest (mapErase state_map cb) stack' completed' num'
            (command_buffers ++ [⟨state.command_buffer_begin_slot_index, end_slot⟩])

/-- The per-submit-info loop of the capturing regime. -/
def processSubmits (meta : SubmissionMetaInformation) :
    List (List VkCommandBuffer) → List (VkCommandBuffer × CommandBufferState) →
    List MarkerState → List MarkerState → Nat → List SubmitInfo →
    Option (List (VkCommandBuffer × CommandBufferState) × List MarkerState ×
            List MarkerState × Nat × List SubmitInfo)
  | [], state_map, marker_stack, completed_markers, num_begin_markers, submit_infos =>
    some (state_map, marker_stack, completed_markers, num_begin_markers, submit_infos)
  | submit :: rest, state_map, marker_stack, completed_markers, num_begin_markers,
      submit_infos =>
    match processSubmitCbs meta submit state_map marker_stack completed_markers
        num_begin_markers [] with
    | none => none
    | some (state_map', stack', completed', num', command_buffers) =>
      processSubmits meta rest state_map' stack' completed' num'
        (submit_infos ++ [⟨command_buffers⟩])

/-- The non-capturing regime's walk: for each referenced buffer resolve the
device once (`.at`, fatal if missing), collect every present slot of a
tracked record and erase it. -/
def collectResetSlots (device_map : List (VkCommandBuffer × VkDevice)) :
    List VkCommandBuffer → List (VkCommandBuffer × CommandBufferState) →
    Option VkDevice → List Nat →
    Option (Option VkDevice × List Nat × List (VkCommandBuffer × CommandBufferState))
  | [], state_map, device, reset_slots => some (device, reset_slots, state_map)
  | cb :: rest, state_map, device, reset_slots =>
    match (if device.isNone then mapLookup device_map cb else device) with
    | none => none
    | some d =>
      match mapLookup state_map cb with
      | none => collectResetSlots device_map rest state_map (some d) reset_slots
      | some state =>
        collectResetSlots device_map rest (mapErase state_map cb) (some d)
          (reset_slots ++ state.collectSlots)

/-- The non-capturing regime of `DoPostSubmitQueue` (capture off or no
pre-submit timestamp): early return when no buffer at all has a record;
otherwise walk the referenced buffers, release every collected slot via
one `ResetQuerySlots` call (omitted when nothing was collected), and keep
everything else untouched. -/
def postSubmitRegime1 (st : TrackerState) (submits : List (List VkCommandBuffer)) :
    Option (TrackerState × List (VkDevice × List Nat)) :=
  if st.command_buffer_to_state.isEmpty then some (st, [])
  else
    match collectResetSlots st.command_buffer_to_device submits.flatten
        st.command_buffer_to_state none [] with
    | none => none
    | some (device, reset_slots, state_map) =>
      some ({ st with command_buffer_to_state := state_map },
            if reset_slots.isEmpty then [] else [(device.getD 0, reset_slots)])

/-- Embedding of `SubmissionTracker::DoPostSubmitQueue`.  A `VkSubmitInfo` is modelled
as its list of command buffers.  The result carries the `ResetQuerySlots`
calls issued to the `TimerQueryPool` (device, slots).  `capturing` is the
value of `IsCapturing()` observed at the top of the hook; `thread_id` and
`now` stand for `GetCurrentThreadId()` / `MonotonicTimestampNs()`. -/
def DoPostSubmitQueue (capturing : Bool) (st : TrackerState) (queue : VkQueue)
    (submits : List (List VkCommandBuffer)) (pre_submit_timestamp : Option Nat)
    (thread_id : Int) (now : Nat) :
    Option (TrackerState × List (VkDevice × List Nat)) :=
  match capturing, pre_submit_timestamp with
  | true, some pre_ts =>
    let markers := (mapLookup st.queue_to_markers queue).getD ⟨[]⟩
    let meta : SubmissionMetaInformation := ⟨pre_ts, now, thread_id⟩
    match processSubmits meta submits st.command_buffer_to_state
        markers.marker_stack [] 0 [] with
    | none => none
    | some (state_map, marker_stack, completed_markers, num_begin_markers,
        submit_infos) =>
      let queue_submission : QueueSubmission :=
        ⟨meta, submit_infos, completed_markers, num_begin_markers⟩
      some ({ st with
                command_buffer_to_state := state_map,
                queue_to_markers := mapInsert st.queue_to_markers queue ⟨marker_stack⟩,
                queue_to_submissions := mapInsert st.queue_to_submissions queue
                  ((mapLookup st.queue_to_submissions queue).getD [] ++
                    [queue_submission]) },
            [])
  | _, _ => postSubmitRegime1 st submits

/-! ## PullCompletedSubmissions (the scan inside `CompleteSubmits`) -/

/-- Outcome of the per-submission readiness scan. -/
inductive SubmissionScan
  | dropped
  | completedReady (slot : Nat)
  | leftInFlight (slot : Nat)
deriving DecidableEq, Repr

/-- One iteration of the outer loop of
`SubmissionTracker::PullCompletedSubmissions`.  The inner loop advances a
reverse iterator but always examines `submission.submit_infos.back()`:
if the *last* submit info has no command buffers the loop runs to `rend`
without ever probing and `erase_submission` stays `true` (`dropped`);
otherwise the last command buffer of the last submit info is probed on its
end slot (`probe`), yielding `completedReady` or `leftInFlight`. -/
def scanSubmission (probe : Nat → Bool) (submission : QueueSubmission) : SubmissionScan :=
  if submission.submit_infos.isEmpty then .dropped
  else
    match submission.submit_infos.getLast? with
    | none => .dropped
    | some last_submit_info =>
      match last_submit_info.command_buffers.getLast? with
      | none => .dropped
      | some last_command_buffer =>
        if probe last_command_buffer.command_buffer_end_slot_index then
          .completedReady last_command_buffer.command_buffer_end_slot_index
        else
          .leftInFlight last_command_buffer.command_buffer_end_slot_index

/-- The whole scan of one queue's in-flight vector: every submission is
examined in order — a kept submission does *not* stop the scan.  Returns
(remaining in-flight list, completed submissions in scan order, end slots
probed in order). -/
def pullQueue (probe : Nat → Bool) :
    List QueueSubmission → List QueueSubmission × List QueueSubmission × List Nat
  | [] => ([], [], [])
  | submission :: rest =>
    let (remaining, completed, probes) := pullQueue probe rest
    match scanSubmission probe submission with
    | .dropped => (remaining, completed, probes)
    | .completedReady slot => (remaining, submission :: completed, slot :: probes)
    | .leftInFlight slot => (submission :: remaining, completed, slot :: probes)

/-- Embedding of `SubmissionTracker::PullCompletedSubmissions` over all queues. -/
def PullCompletedSubmissions (probe : Nat → Bool) :
    List (VkQueue × List QueueSubmission) →
    List (VkQueue × List QueueSubmission) × List QueueSubmission × List Nat
  | [] => ([], [], [])
  | (queue, submissions) :: rest =>
    let (remaining, completed, probes) := pullQueue probe submissions
    let (rest_map, rest_completed, rest_probes) := PullCompletedSubmissions probe rest
    ((queue, remaining) :: rest_map, completed ++ rest_completed, probes ++ rest_probes)

/-! ## Helper lemmas -/

theorem setLastSlot_append (markers : List Marker) (m : Marker) (slot : Nat) :
    setLastSlot (markers ++ [m]) slot = markers ++ [{ m with slot_index := some slot }] := by
  induction markers with
  | nil => rfl
  | cons a rest ih =>
    cases rest with
    | nil => simp [setLastSlot] at ih ⊢
    | cons b rest' => simpa [setLastSlot] using ih

theorem mapLookup_foldl_erase_of_none {V : Type _} (ks : List Nat) :
    ∀ (m : List (Nat × V)) (k : Nat), mapLookup m k = none →
      mapLookup (ks.foldl mapErase m) k = none := by
  induction ks with
  | nil => intro m k h; exact h
  | cons k₀ ks' ih =>
    intro m k h
    simp only [List.foldl_cons]
    refine ih _ _ ?_
    by_cases hk : k₀ = k
    · subst hk
      rw [mapLookup_erase_none m k₀ h]
      exact h
    · rw [mapLookup_erase_ne m k₀ k hk]
      exact h

theorem keys_mapErase_sublist {V : Type _} (m : List (Nat × V)) (k : Nat) :
    ((mapErase m k).map Prod.fst).Sublist (m.map Prod.fst) := by
  induction m with
  | nil => simp [mapErase]
  | cons hd tl ih =>
    obtain ⟨k', v'⟩ := hd
    by_cases h : k' = k
    · simp only [mapErase, if_pos h, List.map_cons]
      exact (List.sublist_cons_self _ _)
    · simp only [mapErase, if_neg h, List.map_cons]
      exact ih.cons₂ _

theorem nodup_keys_mapErase {V : Type _} (m : List (Nat × V)) (k : Nat)
    (h : (m.map Prod.fst).Nodup) : ((mapErase m k).map Prod.fst).Nodup :=
  (keys_mapErase_sublist m k).nodup h

theorem mapLookup_foldl_erase_mem {V : Type _} (ks : List Nat) :
    ∀ (m : List (Nat × V)), (m.map Prod.fst).Nodup →
      ∀ k ∈ ks, mapLookup (ks.foldl mapErase m) k = none := by
  induction ks with
  | nil => intro m _ k hk; exact absurd hk (List.not_mem_nil k)
  | cons k₀ ks' ih =>
    intro m hnd k hk
    simp only [List.foldl_cons]
    rcases List.mem_cons.mp hk with hk₀ | hmem
    · subst hk₀
      exact mapLookup_foldl_erase_of_none ks' _ k (mapLookup_erase_self m k hnd)
    · exact ih (mapErase m k₀) (nodup_keys_mapErase m k₀ hnd) k hmem

theorem mapLookup_foldl_erase_not_mem {V : Type _} (ks : List Nat) :
    ∀ (m : List (Nat × V)) (k : Nat), k ∉ ks →
      mapLookup (ks.foldl mapErase m) k = mapLookup m k := by
  induction ks with
  | nil => intro m k _; rfl
  | cons k₀ ks' ih =>
    intro m k hk
    simp only [List.foldl_cons]
    rw [ih (mapErase m k₀) k (fun hm => hk (List.mem_cons_of_mem _ hm)),
        mapLookup_erase_ne m k₀ k (fun hh => hk (hh ▸ List.mem_cons_self _ _))]

theorem foldl_mapErase_of_none {V : Type _} (ks : List Nat) :
    ∀ (m : List (Nat × V)), (∀ k ∈ ks, mapLookup m k = none) →
      ks.foldl mapErase m = m := by
  induction ks with
  | nil => intro m _; rfl
  | cons k₀ ks' ih =>
    intro m h
    simp only [List.foldl_cons]
    rw [mapLookup_erase_none m k₀ (h k₀ (List.mem_cons_self _ _)),
        ih m (fun k hk => h k (List.mem_cons_of_mem _ hk))]

theorem filterMap_lookup_erase (rest : List VkCommandBuffer)
    (m : List (VkCommandBuffer × CommandBufferState)) (cb : VkCommandBuffer)
    (h : cb ∉ rest) :
    (rest.filterMap fun c => mapLookup (mapErase m cb) c) =
      rest.filterMap fun c => mapLookup m c := by
  induction rest with
  | nil => rfl
  | cons c cs ih =>
    have hc : cb ≠ c := fun hh => h (hh ▸ List.mem_cons_self _ _)
    simp only [List.filterMap_cons, mapLookup_erase_ne m cb c hc,
      ih (fun hm => h (List.mem_cons_of_mem _ hm))]

/-- Characterization of the non-capturing walk of `DoPostSubmitQueue`:
given resolvable devices and duplicate-free buffer references, it returns
(some device, the accumulated slots of every tracked record in walk order,
the state map with all referenced records erased). -/
theorem collectResetSlots_spec (device_map : List (VkCommandBuffer × VkDevice)) :
    ∀ (cbs : List VkCommandBuffer) (state_map : List (VkCommandBuffer × CommandBufferState))
      (device : Option VkDevice) (acc : List Nat),
      (∀ cb ∈ cbs, (mapLookup device_map cb).isSome) → cbs.Nodup →
      ∃ device',
        collectResetSlots device_map cbs state_map device acc =
          some (device',
            acc ++ ((cbs.filterMap fun cb => mapLookup state_map cb).map
              CommandBufferState.collectSlots).flatten,
            cbs.foldl mapErase state_map) := by
  intro cbs
  induction cbs with
  | nil =>
    intro state_map device acc _ _
    exact ⟨device, by simp [collectResetSlots]⟩
  | cons cb rest ih =>
    intro state_map device acc hdev hnd
    have hrestdev : ∀ c ∈ rest, (mapLookup device_map c).isSome :=
      fun c hc => hdev c (List.mem_cons_of_mem _ hc)
    have hrestnd : rest.Nodup := hnd.of_cons
    have hcbrest : cb ∉ rest := (List.nodup_cons.mp hnd).1
    have hdres : ∃ d, (if device.isNone then mapLookup device_map cb else device) = some d := by
      cases device with
      | some d => exact ⟨d, rfl⟩
      | none =>
        simpa using Option.isSome_iff_exists.mp (hdev cb (List.mem_cons_self _ _))
    obtain ⟨d, hd⟩ := hdres
    cases hlk : mapLookup state_map cb with
    | none =>
      obtain ⟨device', hrec⟩ := ih state_map (some d) acc hrestdev hrestnd
      refine ⟨device', ?_⟩
      simp only [collectResetSlots, hd, hlk, List.filterMap_cons, List.foldl_cons]
      rw [mapLookup_erase_none state_map cb hlk]
      exact hrec
    | some state =>
      obtain ⟨device', hrec⟩ :=
        ih (mapErase state_map cb) (some d) (acc ++ state.collectSlots) hrestdev hrestnd
      refine ⟨device', ?_⟩
      simp only [collectResetSlots, hd, hlk, List.filterMap_cons, List.foldl_cons]
      rw [hrec, filterMap_lookup_erase rest state_map cb hcbrest]
      simp [List.append_assoc]

/-- In `resetSlotsGo`, the rollback flag changes only the emitted driver
calls, never the pool bookkeeping. -/
theorem resetSlotsGo_rollback (num : Nat) :
    ∀ (slots : List Nat) (p : QueryPoolState) (calls calls' : List Nat),
      resetSlotsGo num true slots p calls =
        (resetSlotsGo num false slots p calls').map (fun r => (r.1, calls)) := by
  intro slots
  induction slots with
  | nil => intro p calls calls'; rfl
  | cons i rest ih =>
    intro p calls calls'
    unfold resetSlotsGo
    by_cases h : i < num
    · simp only [if_pos h]
      cases hget : p.query_slots[i]? with
      | none => rfl
      | some s =>
        cases s with
        | kReadyForQueryIssue => rfl
        | kQueryPendingOnGpu =>
          simp only [if_pos, List.append_nil]
          exact ih _ calls (calls' ++ [i])
    · simp [if_neg h]

theorem poolClaimInv_of_poolInv (num : Nat) (p : QueryPoolState)
    (h : PoolInv num p) : PoolClaimInv num p :=
  ⟨h, by rw [countP_ready_add_pending]; exact h.1⟩

/-! ## Claim theorems -/

/-- C6: for every initialized device, every slot-pool operation — acquire
via `NextReadyQuerySlot`, release via `ResetQuerySlots`, release via
`RollbackPendingQuerySlots` — preserves the invariant that each of the `N`
slots is in exactly one of the two states ready/pending, that
`ready + pending = N`, and that the free list contains exactly the ready
slots (duplicate-free, so each ready slot appears once). -/
theorem c6_slot_pool_invariant_preserved (num : Nat) (p : QueryPoolState)
    (hinv : PoolClaimInv num p) :
    (∀ i p', NextReadyQuerySlot p = some (some (i, p')) → PoolClaimInv num p') ∧
    (∀ slots res, ResetQuerySlots num p slots = some res → PoolClaimInv num res.1) ∧
    (∀ slots res, RollbackPendingQuerySlots num p slots = some res →
      PoolClaimInv num res.1) := by
  refine ⟨?_, ?_, ?_⟩
  · intro i p' h
    exact poolClaimInv_of_poolInv num p' (poolInv_acquire num p hinv.1 i p' h)
  · intro slots res h
    exact poolClaimInv_of_poolInv num res.1
      (poolInv_resetInternal num false p slots hinv.1 res.1 res.2
        (by simpa [ResetQuerySlots] using h))
  · intro slots res h
    exact poolClaimInv_of_poolInv num res.1
      (poolInv_resetInternal num true p slots hinv.1 res.1 res.2
        (by simpa [RollbackPendingQuerySlots] using h))

/-- Witness for C6 at the freshly initialized two-slot pool. -/
theorem c6_witness :
    PoolClaimInv 2 (initTimerQueryPool 2) ∧
    ((∀ i p', NextReadyQuerySlot (initTimerQueryPool 2) = some (some (i, p')) →
        PoolClaimInv 2 p') ∧
     (∀ slots res, ResetQuerySlots 2 (initTimerQueryPool 2) slots = some res →
        PoolClaimInv 2 res.1) ∧
     (∀ slots res, RollbackPendingQuerySlots 2 (initTimerQueryPool 2) slots = some res →
        PoolClaimInv 2 res.1)) :=
  ⟨by decide, c6_slot_pool_invariant_preserved 2 (initTimerQueryPool 2) (by decide)⟩

/-- C8: `ResetCommandBuffer` on a buffer with a live record returns every
slot the record references (begin, end, markers, in that order) through
`RollbackPendingQuerySlots` and deletes the record; on an untracked buffer
it is a silent no-op.  `RollbackPendingQuerySlots` performs exactly the
same free-list/state bookkeeping as `ResetQuerySlots` but issues no
single-slot driver reset call. -/
theorem c8_reset_command_buffer_rollback :
    (∀ (st : TrackerState) (cb : VkCommandBuffer),
      mapLookup st.command_buffer_to_state cb = none →
      ResetCommandBuffer st cb = some (st, none)) ∧
    (∀ (st : TrackerState) (cb : VkCommandBuffer) (state : CommandBufferState)
        (device : VkDevice),
      mapLookup st.command_buffer_to_state cb = some state →
      mapLookup st.command_buffer_to_device cb = some device →
      ResetCommandBuffer st cb =
        some ({ st with command_buffer_to_state :=
                  mapErase st.command_buffer_to_state cb },
              some (device, state.collectSlots))) ∧
    (∀ (num : Nat) (p : QueryPoolState) (slots : List Nat),
      RollbackPendingQuerySlots num p slots =
        (ResetQuerySlots num p slots).map (fun r => (r.1, []))) := by
  refine ⟨?_, ?_, ?_⟩
  · intro st cb h
    simp [ResetCommandBuffer, h]
  · intro st cb state device hs hd
    simp [ResetCommandBuffer, hs, hd]
  · intro num p slots
    unfold RollbackPendingQuerySlots ResetQuerySlots ResetQuerySlotsInternal
    by_cases he : slots.isEmpty
    · simp only [if_pos he]
      rfl
    · simp only [if_neg he]
      exact resetSlotsGo_rollback num slots p [] []

/-- Concrete record for the C8 witness: slots 32 (begin), 33 (end) and
34 (marker). -/
def c8Record : CommandBufferState :=
  ⟨some 32, some 33, [⟨.kDebugMarkerBegin, some 34, some "A", some ⟨1.0, 0.0, 0.0, 1.0⟩⟩], 1⟩

/-- Concrete state for the C8 witness: buffer 7 tracked on device 1. -/
def c8State : TrackerState := ⟨[(2, [7])], [(7, 1)], [(7, c8Record)], [], []⟩

def c8Erased : TrackerState :=
  { c8State with command_buffer_to_state := mapErase c8State.command_buffer_to_state 7 }

def c8Pool : QueryPoolState := ⟨[.kQueryPendingOnGpu, .kReadyForQueryIssue], [1]⟩

/-- Witness for C8: the tracked and untracked cases of
`ResetCommandBuffer` and the rollback/hardware-reset relation at a
concrete pool. -/
theorem c8_witness :
    ResetCommandBuffer c8State 7 = some (c8Erased, some (1, c8Record.collectSlots)) ∧
    ResetCommandBuffer c8State 9 = some (c8State, none) ∧
    RollbackPendingQuerySlots 2 c8Pool [0] =
      (ResetQuerySlots 2 c8Pool [0]).map (fun r => (r.1, [])) :=
  ⟨c8_reset_command_buffer_rollback.2.1 c8State 7 c8Record 1 rfl rfl,
   c8_reset_command_buffer_rollback.1 c8State 9 rfl,
   c8_reset_command_buffer_rollback.2.2 2 c8Pool [0]⟩

/-- C5 input: buffer 7 tracked once under pool 2 on device 1. -/
def c5State : TrackerState := TrackCommandBuffers TrackerState.initial 1 2 [7]

/-- C5: the spec (and the repository's own test
`SubmissionTrackerTest.CannotTrackTheSameCommandBufferTwice`, which wraps
the second call in `EXPECT_DEATH`) requires a fatal assertion when a
buffer is tracked twice.  `TrackCommandBuffers` in the source contains no
`CHECK` at all: tracking buffer 7 a second time returns normally and
silently re-registers it — the set insert is absorbed and the device entry
overwritten, leaving the exact same state. -/
theorem c5_double_track_is_silent :
    TrackCommandBuffers c5State 1 2 [7] = ⟨[(2, [7])], [(7, 1)], [], [], []⟩ ∧
    c5State = ⟨[(2, [7])], [(7, 1)], [], [], []⟩ :=
  ⟨rfl, rfl⟩

/-- C1 input: buffer 7 is tracked, then recorded begin-to-end while the
capture flag is off (so its record exists but owns no slots), and then
submitted with capture on and a pre-submit timestamp present. -/
def c1Tracked : TrackerState := TrackCommandBuffers TrackerState.initial 1 2 [7]

/-- C1: in the capturing regime of post-submit, the spec says a command
buffer whose record has no end slot is dropped from the submission.  The
source instead evaluates `state.command_buffer_end_slot_index.value()`
unconditionally, which throws `std::bad_optional_access` on the empty
optional — modelled as `none`: the whole capturing `DoPostSubmitQueue`
dies instead of dropping the buffer. -/
theorem c1_missing_end_slot_is_fatal_not_dropped :
    ((MarkCommandBufferBegin false c1Tracked 7 0).bind fun st1 =>
      (MarkCommandBufferEnd false st1 7 0).bind fun st2 =>
        DoPostSubmitQueue true st2 9 [[7]] (some 100) 5 200) = none :=
  rfl

/-- C3 input: an in-flight submission whose first submit info carries one
command buffer (end slot 5) and whose *last* submit info is empty. -/
def c3Submission : QueueSubmission :=
  ⟨⟨100, 200, 5⟩, [⟨[⟨none, 5⟩]⟩, ⟨[]⟩], [], 0⟩

/-- C3: the scan is supposed to probe the end slot of the last command
buffer of the last *non-empty* submit info (here: slot 5), skipping the
trailing empty one.  The source's inner loop advances a reverse iterator
but re-reads `submission.submit_infos.back()` — the trailing empty submit
info — on every iteration, so it never probes anything (probe list `[]`,
even with a driver that would answer ready on every slot) and erases the
submission without completing it (its slots are lost). -/
theorem c3_trailing_empty_submit_info_skips_probe :
    PullCompletedSubmissions (fun _ => true) [(9, [c3Submission])] = ([(9, [])], [], []) :=
  rfl

/-- C4 inputs: two submissions on one queue; the driver reports slot 1
(submission A) not ready and slot 2 (submission B) ready. -/
def c4SubmissionA : QueueSubmission := ⟨⟨100, 110, 5⟩, [⟨[⟨none, 1⟩]⟩], [], 0⟩

def c4SubmissionB : QueueSubmission := ⟨⟨120, 130, 5⟩, [⟨[⟨none, 2⟩]⟩], [], 0⟩

def c4Probe : Nat → Bool := fun slot => slot == 2

/-- C4 counterexample: the claim says a not-ready probe stops the scan of
that queue, so no later submission is probed, and emission is FIFO.  In
the source the loop continues after a not-ready submission: here slot 2 of
the later submission B is probed (probe list `[1, 2]`, not `[1]`) and B is
emitted while the earlier A is still in flight — refuting both the
stop-scanning claim and FIFO emission order. -/
theorem c4_counterexample :
    pullQueue c4Probe [c4SubmissionA, c4SubmissionB] =
      ([c4SubmissionA], [c4SubmissionB], [1, 2]) ∧
    ¬ (pullQueue c4Probe [c4SubmissionA, c4SubmissionB]).2.2 = [1] :=
  ⟨rfl, by decide⟩

def scanKeeps (probe : Nat → Bool) (s : QueueSubmission) : Bool :=
  match scanSubmission probe s with
  | .leftInFlight _ => true
  | _ => false

def scanEmits (probe : Nat → Bool) (s : QueueSubmission) : Bool :=
  match scanSubmission probe s with
  | .completedReady _ => true
  | _ => false

def scanProbedSlot (probe : Nat → Bool) (s : QueueSubmission) : Option Nat :=
  match scanSubmission probe s with
  | .dropped => none
  | .completedReady slot => some slot
  | .leftInFlight slot => some slot

/-- C4 (amended): a not-ready submission is left in place, but the scan
*continues* over the rest of the queue: every in-flight submission is
examined independently, in order — the remaining list keeps exactly the
not-ready-probed submissions, the completed list is exactly the
ready-probed ones (in queue order within this scan), and the probed slots
are those of every scanned submission, not only up to the first not-ready
one.  FIFO emission across scans therefore holds only if driver readiness
is itself FIFO. -/
theorem c4_scan_continues_past_not_ready (probe : Nat → Bool)
    (subs : List QueueSubmission) :
    pullQueue probe subs =
      (subs.filter (scanKeeps probe), subs.filter (scanEmits probe),
       subs.filterMap (scanProbedSlot probe)) := by
  induction subs with
  | nil => rfl
  | cons s rest ih =>
    simp only [pullQueue, ih, List.filter_cons, List.filterMap_cons]
    cases h : scanSubmission probe s <;>
      simp [scanKeeps, scanEmits, scanProbedSlot, h]

/-- C2 inputs: an open marker on the queue stack whose begin carried slot
40, and an end entry recorded without a slot (capture off at the end). -/
def c2Meta : SubmissionMetaInformation := ⟨100, 200, 5⟩

def c2OpenMarker : MarkerState := ⟨some ⟨c2Meta, 40⟩, none, "A", ⟨1.0, 0.0, 0.0, 1.0⟩, 0⟩

def c2EndEntry : Marker := ⟨.kDebugMarkerEnd, none, none, none⟩

/-- C2 counterexample: the claim says the popped marker is emitted iff the
end carried a slot *or* the popped begin carried a begin slot.  Here the
disjunction holds (the begin carried slot 40) yet the source emits
nothing: the walk pops the marker and discards it because only
`marker.slot_index.has_value()` — the end slot — is consulted. -/
theorem c2_counterexample :
    (c2EndEntry.slot_index.isSome || c2OpenMarker.begin_info.isSome) = true ∧
    processMarkers c2Meta [c2EndEntry] [c2OpenMarker] [] 0 = some ([], [], 0) :=
  ⟨rfl, rfl⟩

/-- C2 (amended): when the capturing walk processes an end entry, the top
open marker is popped, and it is emitted into the submission's completed
markers *iff the end entry carried a slot*; when emitted, its end info is
set from that slot and the (possibly absent) begin side is carried over
unchanged. -/
theorem c2_emit_iff_end_slot (meta : SubmissionMetaInformation) (marker : Marker)
    (top : MarkerState) (stack completed : List MarkerState) (num : Nat)
    (hend : marker.type = MarkerType.kDebugMarkerEnd) :
    ∃ emitted,
      processMarkers meta [marker] (top :: stack) completed num =
        some (stack, completed ++ emitted, num) ∧
      (emitted ≠ [] ↔ marker.slot_index.isSome = true) ∧
      (∀ s, marker.slot_index = some s →
        emitted = [{ top with end_info := some ⟨meta, s⟩ }]) ∧
      (marker.slot_index = none → emitted = []) := by
  cases hslot : marker.slot_index with
  | none =>
    refine ⟨[], ?_, ?_, ?_, fun _ => rfl⟩
    · simp [processMarkers, hend, hslot]
    · simp [hslot]
    · intro s hs
      exact Option.noConfusion hs
  | some s =>
    refine ⟨[{ top with end_info := some ⟨meta, s⟩ }], ?_, ?_, ?_, ?_⟩
    · simp [processMarkers, hend, hslot]
    · simp [hslot]
    · intro s' hs'
      rw [Option.some.inj hs']
    · intro h0
      exact Option.noConfusion h0

/-- C2 witness inputs: an open marker without begin info and an end entry
carrying slot 41. -/
def c2wTop : MarkerState := ⟨none, none, "B", ⟨0.0, 0.0, 0.0, 0.0⟩, 1⟩

def c2wEnd : Marker := ⟨.kDebugMarkerEnd, some 41, none, none⟩

/-- Witness for C2's amended theorem at a concrete end entry with a slot. -/
theorem c2_witness :
    ∃ emitted,
      processMarkers c2Meta [c2wEnd] (c2wTop :: []) [] 3 =
        some ([], [] ++ emitted, 3) ∧
      (emitted ≠ [] ↔ c2wEnd.slot_index.isSome = true) ∧
      (∀ s, c2wEnd.slot_index = some s →
        emitted = [{ c2wTop with end_info := some ⟨c2Meta, s⟩ }]) ∧
      (c2wEnd.slot_index = none → emitted = []) :=
  c2_emit_iff_end_slot c2Meta c2wEnd c2wTop [] [] 3 rfl

/-- C10 input: reached purely by hook calls with the capture flag on the
whole time — track buffer 7, begin recording (slot 32), record an
end-marker with no matching begin (slot 33), end recording (slot 34), then
submit with a pre-submit timestamp.  The queue's marker stack is empty
when the end entry is walked. -/
def c10Chain : Option (TrackerState × List (VkDevice × List Nat)) :=
  (MarkCommandBufferBegin true (TrackCommandBuffers TrackerState.initial 1 2 [7]) 7 32).bind
    fun st1 => (MarkDebugMarkerEnd true 0 st1 7 33).bind
      fun r => (MarkCommandBufferEnd true r.1 7 34).bind
        fun st3 => DoPostSubmitQueue true st3 9 [[7]] (some 100) 5 200

/-- C10 counterexample: a sequence of hook calls reaching a capturing
post-submit in which an end entry is walked with the per-queue marker
stack empty — `MarkDebugMarkerEnd` happily records an end entry with no
matching begin anywhere (Vulkan apps can do this), and the unguarded
`marker_stack.top()` / `pop()` then executes on an empty stack (undefined
behaviour, modelled as `none`).  The claimed non-emptiness does not hold
for every hook sequence. -/
theorem c10_counterexample : c10Chain = none := rfl

/-- Begin/end entry predicates for the balance condition. -/
def Marker.isBeginMarker (m : Marker) : Bool := m.type = MarkerType.kDebugMarkerBegin

def Marker.isEndMarker (m : Marker) : Bool := m.type = MarkerType.kDebugMarkerEnd

/-- The balance condition on a walked marker sequence: no prefix contains
more end entries than open markers available to it (initial stack size
plus begin entries of the prefix). -/
def endsBalanced (markers : List Marker) (stack_size : Nat) : Prop :=
  ∀ k, k ≤ markers.length →
    ((markers.take k).countP Marker.isEndMarker : Nat) ≤
      stack_size + (markers.take k).countP Marker.isBeginMarker

instance (markers : List Marker) (stack_size : Nat) :
    Decidable (endsBalanced markers stack_size) := by
  unfold endsBalanced
  infer_instance

/-- C10 (amended): the unguarded pop is safe exactly on balanced input —
if every prefix of the walked marker entries has no more end entries than
the initial stack size plus its begin entries (and every begin entry
carries text and color, as entries produced by `MarkDebugMarkerBegin`
do), then the capturing walk never executes `top()`/`pop()` on an empty
stack and succeeds. -/
theorem c10_balanced_walk_is_safe (meta : SubmissionMetaInformation) :
    ∀ (markers : List Marker) (stack completed : List MarkerState) (num : Nat),
      endsBalanced markers stack.length →
      (∀ m ∈ markers, m.type = MarkerType.kDebugMarkerBegin →
        m.text.isSome ∧ m.color.isSome) →
      (processMarkers meta markers stack completed num).isSome := by
  intro markers
  induction markers with
  | nil => intro stack completed num _ _; simp [processMarkers]
  | cons m rest ih =>
    intro stack completed num hbal hbc
    have hrestbc : ∀ m' ∈ rest, m'.type = MarkerType.kDebugMarkerBegin →
        m'.text.isSome ∧ m'.color.isSome :=
      fun m' hm' => hbc m' (List.mem_cons_of_mem _ hm')
    cases hty : m.type with
    | kDebugMarkerBegin =>
      obtain ⟨htext, hcolor⟩ := hbc m (List.mem_cons_self _ _) hty
      obtain ⟨text, htext'⟩ := Option.isSome_iff_exists.mp htext
      obtain ⟨color, hcolor'⟩ := Option.isSome_iff_exists.mp hcolor
      have hrestbal : endsBalanced rest (stack.length + 1) := by
        intro k hk
        have hb := hbal (k + 1) (by simpa using Nat.succ_le_succ hk)
        simp [List.countP_cons, Marker.isEndMarker, Marker.isBeginMarker, hty] at hb
        omega
      simp only [processMarkers, hty, htext', hcolor']
      have := ih (⟨m.slot_index.map (fun s => ⟨meta, s⟩), none, text, color,
        stack.length⟩ :: stack) completed
        (if m.slot_index.isSome then num + 1 else num) (by simpa using hrestbal) hrestbc
      exact this
    | kDebugMarkerEnd =>
      have hstack : stack ≠ [] := by
        intro hnil
        have hb := hbal 1 (by simp)
        simp [List.countP_cons, Marker.isEndMarker, Marker.isBeginMarker, hty, hnil] at hb
      obtain ⟨top, stack_rest, hcons⟩ := List.exists_cons_of_ne_nil hstack
      subst hcons
      have hrestbal : endsBalanced rest stack_rest.length := by
        intro k hk
        have hb := hbal (k + 1) (by simpa using Nat.succ_le_succ hk)
        simp [List.countP_cons, Marker.isEndMarker, Marker.isBeginMarker, hty] at hb
        omega
      cases hslot : m.slot_index with
      | some s =>
        simp only [processMarkers, hty, hslot]
        exact ih stack_rest _ num hrestbal hrestbc
      | none =>
        simp only [processMarkers, hty, hslot]
        exact ih stack_rest completed num hrestbal hrestbc

/-- C10 witness inputs: one balanced begin/end pair. -/
def c10wBegin : Marker := ⟨.kDebugMarkerBegin, some 40, some "A", some ⟨1.0, 0.0, 0.0, 1.0⟩⟩

def c10wEnd : Marker := ⟨.kDebugMarkerEnd, some 41, none, none⟩

/-- Witness for C10's amended theorem on a balanced two-entry walk. -/
theorem c10_witness :
    (processMarkers c2Meta [c10wBegin, c10wEnd] [] [] 0).isSome :=
  c10_balanced_walk_is_safe c2Meta [c10wBegin, c10wEnd] [] [] 0 (by decide) (by decide)

/-- C9: with `max_local_marker_depth_per_command_buffer = 0`, every
begin- and end-marker recorded while capturing acquires a slot (the
returned flag is `true` and the appended entry carries the slot); with a
positive depth limit `D`, a marker whose local depth exceeds `D` acquires
no slot (`false`, entry slot absent) regardless of the capture flag, but
its entry is still appended to the record's marker list and still
balances the local depth counter — incremented by a begin, decremented by
an end (the decrement is floored at zero, vacuous here since the depth
exceeds `D ≥ 1`). -/
theorem c9_depth_filter (capturing : Bool) (D : Nat) (st : TrackerState)
    (cb : VkCommandBuffer) (text : String) (color : Color) (slot : Nat)
    (state : CommandBufferState) (device : VkDevice)
    (hs : mapLookup st.command_buffer_to_state cb = some state)
    (hdev : mapLookup st.command_buffer_to_device cb = some device) :
    (D = 0 → capturing = true → ∃ st',
      MarkDebugMarkerBegin capturing D st cb text color slot = some (st', true) ∧
      mapLookup st'.command_buffer_to_state cb = some
        { state with
            markers := state.markers ++
              [⟨.kDebugMarkerBegin, some slot, some text, some color⟩],
            local_marker_stack_size := state.local_marker_stack_size + 1 }) ∧
    (D = 0 → capturing = true → ∃ st',
      MarkDebugMarkerEnd capturing D st cb slot = some (st', true) ∧
      mapLookup st'.command_buffer_to_state cb = some
        { state with
            markers := state.markers ++ [⟨.kDebugMarkerEnd, some slot, none, none⟩],
            local_marker_stack_size :=
              if state.local_marker_stack_size ≠ 0 then state.local_marker_stack_size - 1
              else state.local_marker_stack_size }) ∧
    (0 < D → D < state.local_marker_stack_size + 1 → ∃ st',
      MarkDebugMarkerBegin capturing D st cb text color slot = some (st', false) ∧
      mapLookup st'.command_buffer_to_state cb = some
        { state with
            markers := state.markers ++
              [⟨.kDebugMarkerBegin, none, some text, some color⟩],
            local_marker_stack_size := state.local_marker_stack_size + 1 }) ∧
    (0 < D → D < state.local_marker_stack_size → ∃ st',
      MarkDebugMarkerEnd capturing D st cb slot = some (st', false) ∧
      mapLookup st'.command_buffer_to_state cb = some
        { state with
            markers := state.markers ++ [⟨.kDebugMarkerEnd, none, none, none⟩],
            local_marker_stack_size := state.local_marker_stack_size - 1 }) := by
  refine ⟨?_, ?_, ?_, ?_⟩
  · rintro rfl rfl
    refine ⟨⟨st.pool_to_command_buffers, st.command_buffer_to_device,
      mapInsert (mapInsert st.command_buffer_to_state cb
        { state with
            markers := state.markers ++ [⟨.kDebugMarkerBegin, none, some text, some color⟩],
            local_marker_stack_size := state.local_marker_stack_size + 1 }) cb
        { state with
            markers := state.markers ++
              [⟨.kDebugMarkerBegin, some slot, some text, some color⟩],
            local_marker_stack_size := state.local_marker_stack_size + 1 },
      st.queue_to_submissions, st.queue_to_markers⟩, ?_, mapLookup_insert_self _ cb _⟩
    simp [MarkDebugMarkerBegin, hs, hdev, setLastSlot_append]
  · rintro rfl rfl
    refine ⟨⟨st.pool_to_command_buffers, st.command_buffer_to_device,
      mapInsert (mapInsert st.command_buffer_to_state cb
        { state with
            markers := state.markers ++ [⟨.kDebugMarkerEnd, none, none, none⟩],
            local_marker_stack_size :=
              if state.local_marker_stack_size ≠ 0 then state.local_marker_stack_size - 1
              else state.local_marker_stack_size }) cb
        { state with
            markers := state.markers ++ [⟨.kDebugMarkerEnd, some slot, none, none⟩],
            local_marker_stack_size :=
              if state.local_marker_stack_size ≠ 0 then state.local_marker_stack_size - 1
              else state.local_marker_stack_size },
      st.queue_to_submissions, st.queue_to_markers⟩, ?_, mapLookup_insert_self _ cb _⟩
    simp [MarkDebugMarkerEnd, hs, hdev, setLastSlot_append]
  · intro hD hlt
    have h1 : decide (0 < D) = true := decide_eq_true hD
    have h2 : decide (D < state.local_marker_stack_size + 1) = true := decide_eq_true hlt
    refine ⟨⟨st.pool_to_command_buffers, st.command_buffer_to_device,
      mapInsert st.command_buffer_to_state cb
        { state with
            markers := state.markers ++ [⟨.kDebugMarkerBegin, none, some text, some color⟩],
            local_marker_stack_size := state.local_marker_stack_size + 1 },
      st.queue_to_submissions, st.queue_to_markers⟩, ?_, mapLookup_insert_self _ cb _⟩
    simp [MarkDebugMarkerBegin, hs, h1, h2]
  · intro hD hlt
    have h1 : decide (0 < D) = true := decide_eq_true hD
    have h2 : decide (D < state.local_marker_stack_size) = true := decide_eq_true hlt
    have h0 : state.local_marker_stack_size ≠ 0 := by omega
    refine ⟨⟨st.pool_to_command_buffers, st.command_buffer_to_device,
      mapInsert st.command_buffer_to_state cb
        { state with
            markers := state.markers ++ [⟨.kDebugMarkerEnd, none, none, none⟩],
            local_marker_stack_size := state.local_marker_stack_size - 1 },
      st.queue_to_submissions, st.queue_to_markers⟩, ?_, mapLookup_insert_self _ cb _⟩
    simp [MarkDebugMarkerEnd, hs, h1, h2, h0]

/-- C9 witness input: buffer 7 on device 1 with an empty record. -/
def c9State : TrackerState := ⟨[(2, [7])], [(7, 1)], [(7, ⟨none, none, [], 0⟩)], [], []⟩

/-- C9 witness input: like `c9State` but with local depth 5, so both the
begin (depth 6) and end (closing depth 5) exceed a limit of 2. -/
def c9StateDeep : TrackerState := ⟨[(2, [7])], [(7, 1)], [(7, ⟨none, none, [], 5⟩)], [], []⟩

def c9Color : Color := ⟨0.5, 0.5, 0.5, 1.0⟩

/-- Witness for C9: all four cases of the depth filter at concrete
states. -/
theorem c9_witness :
    (∃ st', MarkDebugMarkerBegin true 0 c9State 7 "A" c9Color 32 = some (st', true) ∧
      mapLookup st'.command_buffer_to_state 7 = some
        ⟨none, none, [⟨.kDebugMarkerBegin, some 32, some "A", some c9Color⟩], 1⟩) ∧
    (∃ st', MarkDebugMarkerEnd true 0 c9State 7 33 = some (st', true) ∧
      mapLookup st'.command_buffer_to_state 7 = some
        ⟨none, none, [⟨.kDebugMarkerEnd, some 33, none, none⟩], 0⟩) ∧
    (∃ st', MarkDebugMarkerBegin true 2 c9StateDeep 7 "A" c9Color 32 = some (st', false) ∧
      mapLookup st'.command_buffer_to_state 7 = some
        ⟨none, none, [⟨.kDebugMarkerBegin, none, some "A", some c9Color⟩], 6⟩) ∧
    (∃ st', MarkDebugMarkerEnd true 2 c9StateDeep 7 34 = some (st', false) ∧
      mapLookup st'.command_buffer_to_state 7 = some
        ⟨none, none, [⟨.kDebugMarkerEnd, none, none, none⟩], 4⟩) :=
  ⟨(c9_depth_filter true 0 c9State 7 "A" c9Color 32 ⟨none, none, [], 0⟩ 1 rfl rfl).1
      rfl rfl,
   (c9_depth_filter true 0 c9State 7 "A" c9Color 33 ⟨none, none, [], 0⟩ 1 rfl rfl).2.1
      rfl rfl,
   (c9_depth_filter true 2 c9StateDeep 7 "A" c9Color 32 ⟨none, none, [], 5⟩ 1 rfl rfl).2.2.1
      (by decide) (by decide),
   (c9_depth_filter true 2 c9StateDeep 7 "A" c9Color 34 ⟨none, none, [], 5⟩ 1 rfl rfl).2.2.2
      (by decide) (by decide)⟩

/-- Claim-side description of the slots of C7: every present slot (begin,
end and each marker slot) of every *tracked* record referenced by any
submit info, in reference order. -/
def referencedSlots (st : TrackerState) (submits : List (List VkCommandBuffer)) : List Nat :=
  ((submits.flatten.filterMap fun cb => mapLookup st.command_buffer_to_state cb).map
    CommandBufferState.collectSlots).flatten

/-- C7: in the non-capturing regime (capture inactive or pre-submit
timestamp absent), `DoPostSubmitQueue` releases exactly the present slots
of every tracked record referenced by the submission through one
`ResetQuerySlots` (hardware-reset) call — no call when nothing was
collected — deletes exactly those records (untouched buffers keep
theirs), produces no capture event and leaves the per-queue marker stacks,
submissions, pool map and device map unchanged (the result state differs
from `st` only in `command_buffer_to_state`); and when no referenced
buffer has a record the call is a no-op returning the state unchanged with
no pool call.  Hypotheses: the referenced buffers are tracked in the
device map (the source calls `command_buffer_to_device_.at`), are
duplicate-free, and the state map has unique keys (a `flat_hash_map`
invariant). -/
theorem c7_non_capturing_releases_all_slots (capturing : Bool) (st : TrackerState)
    (queue : VkQueue) (submits : List (List VkCommandBuffer))
    (pre_submit_timestamp : Option Nat) (thread_id : Int) (now : Nat)
    (hreg : capturing = false ∨ pre_submit_timestamp = none)
    (hdev : ∀ cb ∈ submits.flatten, (mapLookup st.command_buffer_to_device cb).isSome)
    (hnd : submits.flatten.Nodup)
    (hkeys : (st.command_buffer_to_state.map Prod.fst).Nodup) :
    ∃ device state_map',
      DoPostSubmitQueue capturing st queue submits pre_submit_timestamp thread_id now =
        some ({ st with command_buffer_to_state := state_map' },
          if (referencedSlots st submits).isEmpty then []
          else [(device, referencedSlots st submits)]) ∧
      (∀ cb ∈ submits.flatten, mapLookup state_map' cb = none) ∧
      (∀ cb, cb ∉ submits.flatten →
        mapLookup state_map' cb = mapLookup st.command_buffer_to_state cb) ∧
      ((∀ cb ∈ submits.flatten, mapLookup st.command_buffer_to_state cb = none) →
        DoPostSubmitQueue capturing st queue submits pre_submit_timestamp thread_id now =
          some (st, [])) := by
  have hbridge : DoPostSubmitQueue capturing st queue submits pre_submit_timestamp
      thread_id now = postSubmitRegime1 st submits := by
    rcases hreg with h | h
    · subst h
      cases pre_submit_timestamp <;> rfl
    · subst h
      cases capturing <;> rfl
  rw [hbridge]
  by_cases hemp : st.command_buffer_to_state.isEmpty
  · have hmap : st.command_buffer_to_state = [] := List.isEmpty_iff.mp hemp
    have hslots : referencedSlots st submits = [] := by
      unfold referencedSlots
      rw [hmap]
      simp [List.filterMap_eq_nil_iff, mapLookup]
    refine ⟨0, st.command_buffer_to_state, ?_, ?_, ?_, ?_⟩
    · rw [hslots]
      unfold postSubmitRegime1
      rw [if_pos hemp]
      rfl
    · intro cb _
      rw [hmap]
      rfl
    · intro cb _
      rfl
    · intro _
      unfold postSubmitRegime1
      rw [if_pos hemp]
  · obtain ⟨device', hcrs⟩ := collectResetSlots_spec st.command_buffer_to_device
      submits.flatten st.command_buffer_to_state none [] hdev hnd
    refine ⟨device'.getD 0, submits.flatten.foldl mapErase st.command_buffer_to_state,
      ?_, ?_, ?_, ?_⟩
    · unfold postSubmitRegime1
      rw [if_neg hemp, hcrs]
      rfl
    · intro cb hcb
      exact mapLookup_foldl_erase_mem _ _ hkeys cb hcb
    · intro cb hcb
      exact mapLookup_foldl_erase_not_mem _ _ cb hcb
    · intro hnone
      have hflt : (submits.flatten.filterMap fun cb =>
          mapLookup st.command_buffer_to_state cb) = [] :=
        List.filterMap_eq_nil_iff.mpr hnone
      have hfold : submits.flatten.foldl mapErase st.command_buffer_to_state =
          st.command_buffer_to_state :=
        foldl_mapErase_of_none _ _ hnone
      unfold postSubmitRegime1
      rw [if_neg hemp, hcrs, hfold, hflt]
      rfl

/-- C7 witness input: buffer 7 tracked with a record owning slots 32, 33
and a marker slot 34; buffer 8 tracked with a record but not referenced by
the submission. -/
def c7State : TrackerState :=
  ⟨[(2, [7, 8])], [(7, 1), (8, 1)],
   [(7, ⟨some 32, some 33, [⟨.kDebugMarkerBegin, some 34, some "A", some ⟨1.0, 0.0, 0.0, 1.0⟩⟩], 1⟩),
    (8, ⟨some 35, none, [], 0⟩)],
   [], []⟩

/-- Witness for C7 at a concrete non-capturing post-submit of buffer 7. -/
theorem c7_witness :
    ∃ device state_map',
      DoPostSubmitQueue false c7State 9 [[7]] none 5 200 =
        some ({ c7State with command_buffer_to_state := state_map' },
          if (referencedSlots c7State [[7]]).isEmpty then []
          else [(device, referencedSlots c7State [[7]])]) ∧
      (∀ cb ∈ [[7]].flatten, mapLookup state_map' cb = none) ∧
      (∀ cb, cb ∉ [[7]].flatten →
        mapLookup state_map' cb = mapLookup c7State.command_buffer_to_state cb) ∧
      ((∀ cb ∈ [[7]].flatten, mapLookup c7State.command_buffer_to_state cb = none) →
        DoPostSubmitQueue false c7State 9 [[7]] none 5 200 = some (c7State, [])) :=
  c7_non_capturing_releases_all_slots false c7State 9 [[7]] none 5 200
    (Or.inl rfl) (by decide) (by decide) (by decide)

end OrbitVulkanLayer
